import Mathlib

/-!
# Verification of the fastcgi-client protocol core

A shallow embedding of the FastCGI client's protocol codec and response
state machine (`src/meta.rs`, `src/client.rs`, `src/id.rs`), with theorems
checking the natural-language specification against the code.

Bytes are modelled as `Nat` values (each in `0..255` on every path the
code can produce); byte streams are `List Nat`.  Async readers are
modelled as the list of chunks their successive `read` calls return, with
the convention that after the list is exhausted every further `read`
returns `0` bytes (end of stream).  Fallible reads return `Option`.
-/

namespace FcgiClient

/-- `VERSION_1` from meta.rs: the FastCGI protocol version constant. -/
def VERSION_1 : Nat := 1

/-- `MAX_LENGTH` from meta.rs: maximum content length of one record. -/
def MAX_LENGTH : Nat := 65535

/-- `RequestType` from meta.rs: the closed enumeration of record types. -/
inductive RequestType where
  | BeginRequest
  | AbortRequest
  | EndRequest
  | Params
  | Stdin
  | Stdout
  | Stderr
  | Data
  | GetValues
  | GetValuesResult
  | UnknownType
deriving DecidableEq, Repr

/-- The numeric tag of a record type (`RequestType as u8` in Rust,
per the discriminants declared in meta.rs). -/
def RequestType.toU8 : RequestType → Nat
  | .BeginRequest => 1
  | .AbortRequest => 2
  | .EndRequest => 3
  | .Params => 4
  | .Stdin => 5
  | .Stdout => 6
  | .Stderr => 7
  | .Data => 8
  | .GetValues => 9
  | .GetValuesResult => 10
  | .UnknownType => 11

/-- `RequestType::from_u8` from meta.rs: any unrecognised tag decodes to
`UnknownType`. -/
def RequestType.from_u8 (u : Nat) : RequestType :=
  match u with
  | 1 => .BeginRequest
  | 2 => .AbortRequest
  | 3 => .EndRequest
  | 4 => .Params
  | 5 => .Stdin
  | 6 => .Stdout
  | 7 => .Stderr
  | 8 => .Data
  | 9 => .GetValues
  | 10 => .GetValuesResult
  | _ => .UnknownType

/-- Big-endian bytes of a 16-bit value, as written by `write_u16`. -/
def u16BE (n : Nat) : List Nat := [n / 256 % 256, n % 256]

/-- `be_buf_to_u16` from meta.rs: `u16::from_be_bytes` of two bytes. -/
def be_buf_to_u16 (b0 b1 : Nat) : Nat := 256 * b0 + b1

/-- Big-endian bytes of a 32-bit value, as written by `write_u32`. -/
def u32BE (n : Nat) : List Nat :=
  [n / 2 ^ 24 % 256, n / 2 ^ 16 % 256, n / 256 % 256, n % 256]

/-- `u32::from_be_bytes` of four bytes. -/
def be_buf_to_u32 (b0 b1 b2 b3 : Nat) : Nat :=
  2 ^ 24 * b0 + 2 ^ 16 * b1 + 256 * b2 + b3

/-- `Header` from meta.rs: the fixed 8-octet record header. -/
structure Header where
  version : Nat
  type : RequestType
  request_id : Nat
  content_length : Nat
  padding_length : Nat
  reserved : Nat
deriving DecidableEq, Repr

/-- `Header::new` from meta.rs.  `content_length` is
`min(content.len(), MAX_LENGTH)`; `padding_length` is
`(-(content_length as i16) & 7) as u8`, whose value is the low three bits
of the two's complement of `content_length`, i.e.
`(8 - content_length % 8) % 8`. -/
def Header.new (t : RequestType) (request_id : Nat) (content : List Nat) : Header :=
  let content_length := min content.length MAX_LENGTH
  { version := VERSION_1
    type := t
    request_id := request_id
    content_length := content_length
    padding_length := (8 - content_length % 8) % 8
    reserved := 0 }

/-- The 8 header bytes in wire order, as pushed by `Header::write_to_stream`:
version, type tag, request id (big-endian u16), content length (big-endian
u16), padding length, reserved. -/
def Header.toBytes (h : Header) : List Nat :=
  [h.version, h.type.toU8] ++ u16BE h.request_id ++ u16BE h.content_length
    ++ [h.padding_length, h.reserved]

/-- `Header::write_to_stream` from meta.rs: the header bytes, then the
content bytes, then `padding_length` zero bytes. -/
def Header.write_to_stream (h : Header) (content : List Nat) : List Nat :=
  h.toBytes ++ content ++ List.replicate h.padding_length 0

/-- One full record on the wire: `Header::new` followed by
`Header::write_to_stream`, as every record-writing path in the client
produces it. -/
def recordBytes (t : RequestType) (request_id : Nat) (content : List Nat) : List Nat :=
  (Header.new t request_id content).write_to_stream content

/-- `Header::new_from_buf` from meta.rs, reading the 8 fields of `buf`.
The Rust argument is `&[u8; 8]`; callers always supply exactly 8 bytes
(`new_from_stream` uses `read_exact`), so the `getD` defaults are never
reached on any path the code executes. -/
def Header.new_from_buf (buf : List Nat) : Header :=
  { version := buf.getD 0 0
    type := RequestType.from_u8 (buf.getD 1 0)
    request_id := be_buf_to_u16 (buf.getD 2 0) (buf.getD 3 0)
    content_length := be_buf_to_u16 (buf.getD 4 0) (buf.getD 5 0)
    padding_length := buf.getD 6 0
    reserved := buf.getD 7 0 }

/-- `Header::read_content_from_stream` from meta.rs: `read_exact` of
`content_length` bytes, then `read_exact` of `padding_length` bytes;
returns the content and the remaining stream, or `none` when the stream
is too short (the `read_exact` I/O error). -/
def Header.read_content_from_stream (h : Header) (stream : List Nat) :
    Option (List Nat × List Nat) :=
  if h.content_length + h.padding_length ≤ stream.length then
    some (stream.take h.content_length, stream.drop (h.content_length + h.padding_length))
  else
    none

/-- The loop body of `Header::write_to_stream_batches` from meta.rs, with
the `had_written` flag explicit.  Each element of `chunks` is the byte
slice one `content.read(&mut buf)` call returned (hence at most 65535
bytes for a real reader); an exhausted reader returns `0` bytes forever,
which the empty-list base cases model. -/
def writeBatchesAux (t : RequestType) (request_id : Nat) :
    List (List Nat) → Bool → List Nat
  | [], false => recordBytes t request_id []
  | [], true => []
  | c :: cs, had_written =>
    if had_written && c.isEmpty then []
    else recordBytes t request_id c ++ writeBatchesAux t request_id cs true

/-- `Header::write_to_stream_batches` from meta.rs (the diagnostic
`before_write` callback returns the header unchanged in every call site,
so it is omitted). -/
def Header.write_to_stream_batches (t : RequestType) (request_id : Nat)
    (chunks : List (List Nat)) : List Nat :=
  writeBatchesAux t request_id chunks false

/-- `ParamLength` from meta.rs. -/
inductive ParamLength where
  | Short (l : Nat)
  | Long (l : Nat)
deriving DecidableEq, Repr

/-- `ParamLength::new` from meta.rs: lengths below 128 stay one byte;
otherwise `length |= 1 << 31` on `usize` and the result is truncated to
`u32`. -/
def ParamLength.new (length : Nat) : ParamLength :=
  if length < 128 then .Short length
  else .Long ((length ||| 1 <<< 31) % 2 ^ 32)

/-- `ParamLength::content` from meta.rs: one raw byte for the short form,
four big-endian bytes for the long form. -/
def ParamLength.content : ParamLength → List Nat
  | .Short l => [l]
  | .Long l => u32BE l

/-- `ParamPair` from meta.rs, carrying the name and value bytes
(`name_length`/`value_length` are recomputed from them exactly as
`ParamPair::new` does). -/
structure ParamPair where
  name_data : List Nat
  value_data : List Nat
deriving DecidableEq, Repr

/-- `ParamPair::write_to_stream` from meta.rs: encoded name length,
encoded value length, then the raw name and value bytes. -/
def ParamPair.write_to_stream (p : ParamPair) : List Nat :=
  (ParamLength.new p.name_data.length).content
    ++ (ParamLength.new p.value_data.length).content
    ++ p.name_data ++ p.value_data

/-- `ProtocolStatus` from meta.rs. -/
inductive ProtocolStatus where
  | RequestComplete
  | CantMpxConn
  | Overloaded
  | UnknownRole
deriving DecidableEq, Repr

/-- The numeric code of a protocol status (its declared discriminant). -/
def ProtocolStatus.toU8 : ProtocolStatus → Nat
  | .RequestComplete => 0
  | .CantMpxConn => 1
  | .Overloaded => 2
  | .UnknownRole => 3

/-- `ProtocolStatus::from_u8` from meta.rs: any code other than 0, 1, 2
decodes to `UnknownRole`. -/
def ProtocolStatus.from_u8 (u : Nat) : ProtocolStatus :=
  match u with
  | 0 => .RequestComplete
  | 1 => .CantMpxConn
  | 2 => .Overloaded
  | _ => .UnknownRole

/-- `ClientError` from error.rs (plus the allocation-timeout variant that
id.rs constructs).  The I/O payload is dropped: the claims only
distinguish error variants. -/
inductive ClientError where
  | IoError
  | RequestIdNotFound (id : Nat)
  | ResponseNotFound (id : Nat)
  | UnknownRequestType (t : RequestType)
  | EndRequest (protocol_status : ProtocolStatus) (app_status : Nat)
  | RequestIdGenerateTimeout
deriving DecidableEq, Repr

/-- `ProtocolStatus::convert_to_client_result` from meta.rs:
`RequestComplete` is `Ok(())`; every other status is an `EndRequest`
error carrying that status and the given app status. -/
def ProtocolStatus.convert_to_client_result (s : ProtocolStatus) (app_status : Nat) :
    Except ClientError Unit :=
  match s with
  | .RequestComplete => .ok ()
  | _ => .error (.EndRequest s app_status)

/-- `EndRequest` from meta.rs: the decoded end-request body. -/
structure EndRequest where
  app_status : Nat
  protocol_status : ProtocolStatus
  reserved : List Nat
deriving DecidableEq, Repr

/-- `EndRequestRec::new_from_buf` from meta.rs.  The Rust code slices
`buf[0..4]`, `buf[4..5]` and `buf[5..8]` unconditionally, so it panics
whenever `buf` holds fewer than 8 bytes; `none` models that panic. -/
def EndRequestRec.new_from_buf (buf : List Nat) : Option EndRequest :=
  if 8 ≤ buf.length then
    some { app_status := be_buf_to_u32 (buf.getD 0 0) (buf.getD 1 0) (buf.getD 2 0) (buf.getD 3 0)
           protocol_status := ProtocolStatus.from_u8 (buf.getD 4 0)
           reserved := (buf.drop 5).take 3 }
  else
    none

/-- The wire content of an end-request body: big-endian `app_status`,
the protocol status code, and three reserved zero bytes. -/
def endRequestBody (app_status : Nat) (s : ProtocolStatus) : List Nat :=
  u32BE app_status ++ [s.toU8, 0, 0, 0]

/-- `Response` from response.rs: the public result, with `None` standing
for a buffer that never received any bytes. -/
structure Response where
  stdout : Option (List Nat)
  stderr : Option (List Nat)
deriving DecidableEq, Repr

/-- The packaging at the end of `Client::handle_response` (client.rs):
`if buf.is_empty() { None } else { Some(buf) }`. -/
def listToOpt (l : List Nat) : Option (List Nat) :=
  if l.isEmpty then none else some l

/-- The loop of `Client::handle_response` (client.rs), with the `stdout`
and `stderr` accumulators explicit and a fuel argument bounding the
number of iterations.  Each iteration consumes at least the 8 header
bytes, so `stream.length + 1` fuel always suffices; the fuel-exhausted
branch is unreachable from `Client.handle_response`.  The value `none`
models a panic inside the loop (from `EndRequestRec::new_from_buf`);
`some` carries the `ClientResult`. -/
def handleResponseAux (id : Nat) :
    Nat → List Nat → List Nat → List Nat → Option (Except ClientError Response)
  | 0, _, _, _ => some (.error .IoError)
  | fuel + 1, stream, out, err =>
    if 8 ≤ stream.length then
      let header := Header.new_from_buf (stream.take 8)
      let rest := stream.drop 8
      if header.request_id = id then
        match header.type with
        | .Stdout =>
          match header.read_content_from_stream rest with
          | none => some (.error .IoError)
          | some (content, rest2) => handleResponseAux id fuel rest2 (out ++ content) err
        | .Stderr =>
          match header.read_content_from_stream rest with
          | none => some (.error .IoError)
          | some (content, rest2) => handleResponseAux id fuel rest2 out (err ++ content)
        | .EndRequest =>
          match header.read_content_from_stream rest with
          | none => some (.error .IoError)
          | some (content, _) =>
            match EndRequestRec.new_from_buf content with
            | none => none
            | some rec =>
              match rec.protocol_status.convert_to_client_result rec.app_status with
              | .error e => some (.error e)
              | .ok _ => some (.ok { stdout := listToOpt out, stderr := listToOpt err })
        | t => some (.error (.UnknownRequestType t))
      else
        some (.error (.ResponseNotFound id))
    else
      some (.error .IoError)

/-- `Client::handle_response` from client.rs, over a finite byte stream:
reads records until `EndRequest`, accumulating `Stdout`/`Stderr` content
and failing on a wrong request id, an unexpected record type, or a short
read (`some (.error _)`); `none` models a panic. -/
def Client.handle_response (stream : List Nat) (id : Nat) :
    Option (Except ClientError Response) :=
  handleResponseAux id (stream.length + 1) stream [] []

/-- `Client::handle_request_body` from client.rs: one
`write_to_stream_batches` call streaming the body under type `Stdin`,
then a second one with `tokio::io::empty()` (a reader whose chunk list
is empty). -/
def Client.handle_request_body (id : Nat) (body : List (List Nat)) : List Nat :=
  Header.write_to_stream_batches .Stdin id body
    ++ Header.write_to_stream_batches .Stdin id []

/-- `REQUEST_ID` from client.rs: the constant request id 1 used for every
request in both connection modes. -/
def REQUEST_ID : Nat := 1

/-- The request id under which the `call`-th invocation of
`Client::execute_stream` (or `execute`) on one keep-alive client sends
its records: client.rs passes the constant `REQUEST_ID` to
`handle_request` on every call. -/
def executeStreamRequestId : Nat → Nat :=
  fun _ => REQUEST_ID

/-- `MAX_REQUEST_ID` from id.rs: `u16::max_value() - 1`. -/
def MAX_REQUEST_ID : Nat := 65534

/-- The mutable state of `RequestIdGenerator` from id.rs: the `id`
counter and the `ids` set (as a list up to membership). -/
structure IdGenState where
  id : Nat
  ids : List Nat
deriving DecidableEq, Repr

/-- The loop of `RequestIdGenerator::inner_alloc` from id.rs: wrap the
counter at `MAX_REQUEST_ID`, increment, and return the new counter value
unless it is in `ids`, in which case sleep and retry.  Fuel bounds the
retries; `none` models still being blocked when the surrounding
`timeout` fires.  The loop never inserts into `ids`. -/
def RequestIdGenerator.inner_alloc : Nat → IdGenState → Option (Nat × IdGenState)
  | 0, _ => none
  | fuel + 1, s =>
    let bumped := (if MAX_REQUEST_ID ≤ s.id then 0 else s.id) + 1
    if bumped ∈ s.ids then
      RequestIdGenerator.inner_alloc fuel { s with id := bumped }
    else
      some (bumped, { s with id := bumped })

/-- `RequestIdGenerator::alloc` from id.rs: `inner_alloc` under a
timeout, mapped to `RequestIdGenerateTimeout` when it never completes. -/
def RequestIdGenerator.alloc (fuel : Nat) (s : IdGenState) :
    Except ClientError (Nat × IdGenState) :=
  match RequestIdGenerator.inner_alloc fuel s with
  | some (i, s2) => .ok (i, s2)
  | none => .error .RequestIdGenerateTimeout

/-- `RequestIdGenerator::release` from id.rs: remove the id from the
set. -/
def RequestIdGenerator.release (s : IdGenState) (i : Nat) : IdGenState :=
  { s with ids := s.ids.filter (· ≠ i) }

/-- A release-free trace: `n` consecutive `alloc` calls, collecting the
returned ids; stops early if an allocation times out. -/
def allocRun (fuel : Nat) : Nat → IdGenState → List Nat × IdGenState
  | 0, s => ([], s)
  | n + 1, s =>
    match RequestIdGenerator.alloc fuel s with
    | .ok (i, s2) =>
      let r := allocRun fuel n s2
      (i :: r.1, r.2)
    | .error _ => ([], s)

/-- Encoding of a synthetic record stream: each element of `recs` is a
record type and its content, laid on the wire by `Header::new` +
`Header::write_to_stream`. -/
def encodeRecords (id : Nat) : List (RequestType × List Nat) → List Nat
  | [] => []
  | r :: rs => recordBytes r.1 id r.2 ++ encodeRecords id rs

/-- One record per chunk, in order: the reference layout of a batched
write that emits no terminator of its own. -/
def encodeChunks (t : RequestType) (id : Nat) : List (List Nat) → List Nat
  | [] => []
  | c :: cs => recordBytes t id c ++ encodeChunks t id cs

/-- Concatenation of the contents of all `Stdout` records, in stream
order. -/
def concatOut : List (RequestType × List Nat) → List Nat
  | [] => []
  | r :: rs => (if r.1 = .Stdout then r.2 else []) ++ concatOut rs

/-- Concatenation of the contents of all `Stderr` records, in stream
order. -/
def concatErr : List (RequestType × List Nat) → List Nat
  | [] => []
  | r :: rs => (if r.1 = .Stderr then r.2 else []) ++ concatErr rs

/-- Well-formedness of a synthetic Stdout/Stderr record stream: every
record is `Stdout` or `Stderr` and its content fits in one record. -/
def OutErrRecs (recs : List (RequestType × List Nat)) : Prop :=
  ∀ r ∈ recs, (r.1 = RequestType.Stdout ∨ r.1 = RequestType.Stderr)
    ∧ r.2.length ≤ MAX_LENGTH

instance (recs : List (RequestType × List Nat)) : Decidable (OutErrRecs recs) := by
  unfold OutErrRecs
  infer_instance

/-! ## Codec lemmas -/

theorem requestType_from_u8_roundtrip (t : RequestType) : RequestType.from_u8 t.toU8 = t := by
  cases t <;> rfl

theorem protocolStatus_from_u8_roundtrip (s : ProtocolStatus) : ProtocolStatus.from_u8 s.toU8 = s := by
  cases s <;> rfl

theorem be_buf_to_u16_u16BE (n : Nat) (h : n < 65536) :
    be_buf_to_u16 (n / 256 % 256) (n % 256) = n := by
  unfold be_buf_to_u16
  omega

theorem Header.toBytes_explicit (h : Header) :
    h.toBytes = [h.version, h.type.toU8, h.request_id / 256 % 256, h.request_id % 256,
      h.content_length / 256 % 256, h.content_length % 256, h.padding_length, h.reserved] := by
  simp [Header.toBytes, u16BE]

theorem Header.length_toBytes (h : Header) : h.toBytes.length = 8 := by
  simp [Header.toBytes_explicit]

theorem Header.new_content_length (t : RequestType) (id : Nat) (c : List Nat)
    (hc : c.length ≤ MAX_LENGTH) : (Header.new t id c).content_length = c.length := by
  simp [Header.new, min_eq_left hc]

theorem Header.new_from_buf_toBytes (t : RequestType) (id : Nat) (c : List Nat)
    (hid : id < 65536) : Header.new_from_buf (Header.new t id c).toBytes = Header.new t id c := by
  have hcl : (Header.new t id c).content_length < 65536 := by
    simp only [Header.new]
    have : min c.length MAX_LENGTH ≤ MAX_LENGTH := min_le_right _ _
    simp only [MAX_LENGTH] at this ⊢
    omega
  have hrid : (Header.new t id c).request_id = id := rfl
  rw [Header.toBytes_explicit]
  simp only [Header.new_from_buf, List.getD]
  cases hh : Header.new t id c with
  | mk v ty rid cl pl rs =>
    simp only [hh] at hcl hrid
    simp only [List.getElem?_cons_zero, List.getElem?_cons_succ, Option.getD_some]
    congr 1
    · exact requestType_from_u8_roundtrip ty
    · exact be_buf_to_u16_u16BE rid (hrid ▸ hid)
    · exact be_buf_to_u16_u16BE cl hcl

theorem recordBytes_eq (t : RequestType) (id : Nat) (c : List Nat) :
    recordBytes t id c = (Header.new t id c).toBytes
      ++ (c ++ List.replicate (Header.new t id c).padding_length 0) := by
  simp [recordBytes, Header.write_to_stream]

theorem take_eight_recordBytes (t : RequestType) (id : Nat) (c : List Nat) (tail : List Nat) :
    ((recordBytes t id c ++ tail).take 8) = (Header.new t id c).toBytes := by
  rw [recordBytes_eq, List.append_assoc]
  exact List.take_left' (Header.length_toBytes _)

theorem drop_eight_recordBytes (t : RequestType) (id : Nat) (c : List Nat) (tail : List Nat) :
    ((recordBytes t id c ++ tail).drop 8)
      = c ++ List.replicate (Header.new t id c).padding_length 0 ++ tail := by
  rw [recordBytes_eq, List.append_assoc]
  rw [List.drop_left' (Header.length_toBytes _), List.append_assoc]

theorem length_recordBytes_ge (t : RequestType) (id : Nat) (c : List Nat) :
    8 ≤ (recordBytes t id c).length := by
  rw [recordBytes_eq]
  simp [Header.length_toBytes]

theorem read_content_encoded (t : RequestType) (id : Nat) (c : List Nat) (tail : List Nat)
    (hc : c.length ≤ MAX_LENGTH) :
    (Header.new t id c).read_content_from_stream
      (c ++ List.replicate (Header.new t id c).padding_length 0 ++ tail) = some (c, tail) := by
  have hcl := Header.new_content_length t id c hc
  have hlen : (c ++ List.replicate (Header.new t id c).padding_length 0).length
      = c.length + (Header.new t id c).padding_length := by
    simp
  have htake : (c ++ List.replicate (Header.new t id c).padding_length 0 ++ tail).take c.length
      = c := by
    rw [List.append_assoc]
    exact List.take_left' rfl
  have hdrop : (c ++ List.replicate (Header.new t id c).padding_length 0 ++ tail).drop
      (c.length + (Header.new t id c).padding_length) = tail :=
    List.drop_left' hlen
  have hcond : (Header.new t id c).content_length + (Header.new t id c).padding_length
      ≤ (c ++ List.replicate (Header.new t id c).padding_length 0 ++ tail).length := by
    rw [hcl, List.length_append, hlen]
    omega
  unfold Header.read_content_from_stream
  rw [hcl] at hcond ⊢
  rw [if_pos hcond, htake, hdrop]

/-! ## Response-loop lemmas -/

theorem Header.new_request_id (t : RequestType) (id : Nat) (c : List Nat) :
    (Header.new t id c).request_id = id := rfl

theorem Header.new_type (t : RequestType) (id : Nat) (c : List Nat) :
    (Header.new t id c).type = t := rfl

theorem handleResponseAux_stdout (id : Nat) (hid : id < 65536) (c : List Nat)
    (hc : c.length ≤ MAX_LENGTH) (fuel : Nat) (tail out err : List Nat) :
    handleResponseAux id (fuel + 1) (recordBytes .Stdout id c ++ tail) out err
      = handleResponseAux id fuel tail (out ++ c) err := by
  have h8 : 8 ≤ (recordBytes .Stdout id c ++ tail).length := by
    rw [List.length_append]
    have := length_recordBytes_ge .Stdout id c
    omega
  simp only [handleResponseAux]
  rw [if_pos h8, take_eight_recordBytes, Header.new_from_buf_toBytes _ _ _ hid,
    if_pos (Header.new_request_id .Stdout id c), Header.new_type,
    drop_eight_recordBytes, read_content_encoded _ _ _ _ hc]

theorem handleResponseAux_stderr (id : Nat) (hid : id < 65536) (c : List Nat)
    (hc : c.length ≤ MAX_LENGTH) (fuel : Nat) (tail out err : List Nat) :
    handleResponseAux id (fuel + 1) (recordBytes .Stderr id c ++ tail) out err
      = handleResponseAux id fuel tail out (err ++ c) := by
  have h8 : 8 ≤ (recordBytes .Stderr id c ++ tail).length := by
    rw [List.length_append]
    have := length_recordBytes_ge .Stderr id c
    omega
  simp only [handleResponseAux]
  rw [if_pos h8, take_eight_recordBytes, Header.new_from_buf_toBytes _ _ _ hid,
    if_pos (Header.new_request_id .Stderr id c), Header.new_type,
    drop_eight_recordBytes, read_content_encoded _ _ _ _ hc]

theorem handleResponseAux_end (id : Nat) (hid : id < 65536) (body : List Nat)
    (hb : body.length ≤ MAX_LENGTH) (fuel : Nat) (tail out err : List Nat) :
    handleResponseAux id (fuel + 1) (recordBytes .EndRequest id body ++ tail) out err
      = match EndRequestRec.new_from_buf body with
        | none => none
        | some rec =>
          match rec.protocol_status.convert_to_client_result rec.app_status with
          | .error e => some (.error e)
          | .ok _ => some (.ok { stdout := listToOpt out, stderr := listToOpt err }) := by
  have h8 : 8 ≤ (recordBytes .EndRequest id body ++ tail).length := by
    rw [List.length_append]
    have := length_recordBytes_ge .EndRequest id body
    omega
  simp only [handleResponseAux]
  rw [if_pos h8, take_eight_recordBytes, Header.new_from_buf_toBytes _ _ _ hid,
    if_pos (Header.new_request_id .EndRequest id body), Header.new_type,
    drop_eight_recordBytes, read_content_encoded _ _ _ _ hb]

theorem be_buf_to_u32_u32BE (n : Nat) :
    be_buf_to_u32 (n / 2 ^ 24 % 256) (n / 2 ^ 16 % 256) (n / 256 % 256) (n % 256)
      = n % 2 ^ 32 := by
  unfold be_buf_to_u32
  simp only [show (2 : Nat) ^ 24 = 16777216 from rfl, show (2 : Nat) ^ 16 = 65536 from rfl,
    show (2 : Nat) ^ 32 = 4294967296 from rfl]
  omega

theorem length_endRequestBody (app : Nat) (s : ProtocolStatus) :
    (endRequestBody app s).length = 8 := by
  simp [endRequestBody, u32BE]

theorem new_from_buf_endRequestBody (app : Nat) (s : ProtocolStatus) :
    EndRequestRec.new_from_buf (endRequestBody app s)
      = some { app_status := app % 2 ^ 32, protocol_status := s, reserved := [0, 0, 0] } := by
  unfold EndRequestRec.new_from_buf
  rw [if_pos (by rw [length_endRequestBody])]
  unfold endRequestBody u32BE
  simp only [List.cons_append, List.nil_append, List.getD_cons_zero, List.getD_cons_succ,
    List.drop, List.take]
  rw [be_buf_to_u32_u32BE, protocolStatus_from_u8_roundtrip]

theorem length_encodeRecords_ge (id : Nat) (recs : List (RequestType × List Nat)) :
    recs.length ≤ (encodeRecords id recs).length := by
  induction recs with
  | nil => simp [encodeRecords]
  | cons r rs ih =>
    simp only [encodeRecords, List.length_append, List.length_cons]
    have := length_recordBytes_ge r.1 id r.2
    omega

theorem handleResponseAux_records (id : Nat) (hid : id < 65536)
    (recs : List (RequestType × List Nat)) (h : OutErrRecs recs) :
    ∀ (fuel : Nat) (tail out err : List Nat),
    handleResponseAux id (fuel + recs.length) (encodeRecords id recs ++ tail) out err
      = handleResponseAux id fuel tail (out ++ concatOut recs) (err ++ concatErr recs) := by
  revert h
  induction recs with
  | nil =>
    intro _ fuel tail out err
    simp [encodeRecords, concatOut, concatErr]
  | cons r rs ih =>
    intro h fuel tail out err
    obtain ⟨ht, hc⟩ := h r (List.mem_cons_self _ _)
    have hrs : OutErrRecs rs := fun x hx => h x (List.mem_cons_of_mem _ hx)
    obtain ⟨t, c⟩ := r
    dsimp only at ht hc
    simp only [encodeRecords, List.append_assoc, List.length_cons]
    have hfuel : fuel + (rs.length + 1) = (fuel + rs.length) + 1 := by omega
    rw [hfuel]
    rcases ht with ht | ht <;> subst ht
    · rw [handleResponseAux_stdout id hid c hc (fuel + rs.length), ih hrs]
      simp [concatOut, concatErr, List.append_assoc]
    · rw [handleResponseAux_stderr id hid c hc (fuel + rs.length), ih hrs]
      simp [concatOut, concatErr, List.append_assoc]

/-- The full demultiplexer run on a well-formed synthetic stream: the
interleaved `Stdout`/`Stderr` records accumulate in order, and the
terminating `EndRequest` record decides the outcome through
`convert_to_client_result`. -/
theorem handle_response_encoded (recs : List (RequestType × List Nat)) (h : OutErrRecs recs)
    (app : Nat) (ps : ProtocolStatus) :
    Client.handle_response
        (encodeRecords 1 recs ++ recordBytes .EndRequest 1 (endRequestBody app ps)) 1
      = match ps.convert_to_client_result (app % 2 ^ 32) with
        | .error e => some (.error e)
        | .ok _ => some (.ok { stdout := listToOpt (concatOut recs),
                               stderr := listToOpt (concatErr recs) }) := by
  unfold Client.handle_response
  have hge : recs.length
      ≤ (encodeRecords 1 recs ++ recordBytes .EndRequest 1 (endRequestBody app ps)).length := by
    rw [List.length_append]
    have := length_encodeRecords_ge 1 recs
    omega
  obtain ⟨k, hk⟩ : ∃ k,
      (encodeRecords 1 recs ++ recordBytes .EndRequest 1 (endRequestBody app ps)).length + 1
        = (k + 1) + recs.length :=
    ⟨(encodeRecords 1 recs ++ recordBytes .EndRequest 1 (endRequestBody app ps)).length
        - recs.length, by omega⟩
  rw [hk, handleResponseAux_records 1 (by omega) recs h (k + 1) _ [] []]
  rw [← List.append_nil (recordBytes RequestType.EndRequest 1 (endRequestBody app ps))]
  rw [handleResponseAux_end 1 (by omega) _ (by rw [length_endRequestBody]; simp [MAX_LENGTH])]
  rw [new_from_buf_endRequestBody]
  simp only [List.nil_append]

/-! ## Batched-write lemmas -/

theorem writeBatchesAux_true_eq (t : RequestType) (id : Nat) (chunks : List (List Nat))
    (h : ∀ c ∈ chunks, c ≠ []) :
    writeBatchesAux t id chunks true = encodeChunks t id chunks := by
  induction chunks with
  | nil => rfl
  | cons c cs ih =>
    have hc : c ≠ [] := h c (List.mem_cons_self _ _)
    have hcs : ∀ x ∈ cs, x ≠ [] := fun x hx => h x (List.mem_cons_of_mem _ hx)
    simp only [writeBatchesAux, encodeChunks, Bool.true_and]
    rw [if_neg (by simpa [List.isEmpty_iff] using hc), ih hcs]

theorem write_to_stream_batches_nonempty (t : RequestType) (id : Nat)
    (chunks : List (List Nat)) (h : ∀ c ∈ chunks, c ≠ []) :
    Header.write_to_stream_batches t id chunks
      = if chunks = [] then recordBytes t id [] else encodeChunks t id chunks := by
  cases chunks with
  | nil => rfl
  | cons c cs =>
    have hc : c ≠ [] := h c (List.mem_cons_self _ _)
    have hcs : ∀ x ∈ cs, x ≠ [] := fun x hx => h x (List.mem_cons_of_mem _ hx)
    simp only [Header.write_to_stream_batches, writeBatchesAux, Bool.false_and,
      if_neg (List.cons_ne_nil c cs), encodeChunks]
    rw [if_neg (by simp), writeBatchesAux_true_eq t id cs hcs]

/-! ## Request-id allocator lemmas -/

theorem inner_alloc_preserves_ids :
    ∀ (fuel : Nat) (s : IdGenState) (i : Nat) (s2 : IdGenState),
    RequestIdGenerator.inner_alloc fuel s = some (i, s2) → s2.ids = s.ids := by
  intro fuel
  induction fuel with
  | zero => intro s i s2 h; simp [RequestIdGenerator.inner_alloc] at h
  | succ m ih =>
    intro s i s2 h
    simp only [RequestIdGenerator.inner_alloc] at h
    by_cases hmem : ((if MAX_REQUEST_ID ≤ s.id then 0 else s.id) + 1) ∈ s.ids
    · rw [if_pos hmem] at h
      have h2 := ih _ _ _ h
      exact h2
    · rw [if_neg hmem] at h
      simp only [Option.some.injEq, Prod.mk.injEq] at h
      rw [← h.2]

theorem inner_alloc_empty_ids (fuel : Nat) (s : IdGenState) (hids : s.ids = [])
    (hf : 1 ≤ fuel) :
    RequestIdGenerator.inner_alloc fuel s
      = some ((if MAX_REQUEST_ID ≤ s.id then 0 else s.id) + 1,
              { id := (if MAX_REQUEST_ID ≤ s.id then 0 else s.id) + 1, ids := s.ids }) := by
  cases fuel with
  | zero => omega
  | succ m =>
    simp only [RequestIdGenerator.inner_alloc]
    rw [if_neg (by rw [hids]; simp)]

theorem allocRun_no_wrap (fuel : Nat) (hf : 1 ≤ fuel) :
    ∀ (n k : Nat), k + n ≤ MAX_REQUEST_ID →
    allocRun fuel n ⟨k, []⟩ = (List.range' (k + 1) n, ⟨k + n, []⟩) := by
  intro n
  induction n with
  | zero =>
    intro k _
    simp [allocRun, List.range']
  | succ m ih =>
    intro k hk
    have hbump : (if MAX_REQUEST_ID ≤ (⟨k, []⟩ : IdGenState).id then 0
        else (⟨k, []⟩ : IdGenState).id) + 1 = k + 1 := by
      simp only
      rw [if_neg (by simp only [MAX_REQUEST_ID] at hk ⊢; omega)]
    simp only [allocRun, RequestIdGenerator.alloc,
      inner_alloc_empty_ids fuel ⟨k, []⟩ rfl hf, hbump]
    rw [ih (k + 1) (by omega)]
    rw [List.range'_succ]
    have hsum : k + 1 + m = k + (m + 1) := by omega
    rw [hsum]

theorem allocRun_append (fuel a b : Nat) (s : IdGenState) :
    allocRun fuel (a + b) s
      = ((allocRun fuel a s).1 ++ (allocRun fuel b (allocRun fuel a s).2).1,
         (allocRun fuel b (allocRun fuel a s).2).2) := by
  induction a generalizing s with
  | zero =>
    simp [allocRun]
  | succ m ih =>
    have hre : m + 1 + b = (m + b) + 1 := by omega
    rw [hre]
    cases halloc : RequestIdGenerator.alloc fuel s with
    | ok p =>
      obtain ⟨i, s2⟩ := p
      simp only [allocRun, halloc, ih s2, List.cons_append]
    | error e =>
      cases b with
      | zero => simp [allocRun, halloc]
      | succ b2 => simp [allocRun, halloc]

theorem allocRun_wraparound (fuel : Nat) (hf : 1 ≤ fuel) :
    allocRun fuel 65535 ⟨0, []⟩ = (List.range' 1 65534 ++ [1], ⟨1, []⟩) := by
  rw [show (65535 : Nat) = 65534 + 1 from rfl, allocRun_append]
  rw [allocRun_no_wrap fuel hf 65534 0 (by simp [MAX_REQUEST_ID])]
  simp only [Nat.zero_add]
  simp [allocRun, RequestIdGenerator.alloc,
    inner_alloc_empty_ids fuel ⟨65534, []⟩ rfl hf, MAX_REQUEST_ID]

theorem listToOpt_eq (l : List Nat) : listToOpt l = if l = [] then none else some l := by
  by_cases h : l = [] <;> simp [listToOpt, List.isEmpty_iff, h]

/-! ## Claims -/

/-- Claim C1: for every finite record stream carrying request id 1 that
consists of any interleaving of Stdout and Stderr records followed by one
EndRequest record with protocol status RequestComplete,
`Client::handle_response` returns `Ok`, and the returned response's stdout
is the concatenation of the content of all Stdout records in stream order
(packaged in the `Response` option field), and likewise its stderr. -/
theorem C1_demux_accumulates (recs : List (RequestType × List Nat)) (app : Nat)
    (h : OutErrRecs recs) :
    Client.handle_response
        (encodeRecords 1 recs
          ++ recordBytes .EndRequest 1 (endRequestBody app .RequestComplete)) 1
      = some (.ok { stdout := listToOpt (concatOut recs),
                    stderr := listToOpt (concatErr recs) }) := by
  rw [handle_response_encoded recs h app .RequestComplete]
  rfl

theorem C1_demux_accumulates_witness :
    OutErrRecs [(RequestType.Stdout, [1]), (RequestType.Stderr, [2]), (RequestType.Stdout, [3])]
    ∧ Client.handle_response
        (encodeRecords 1
            [(RequestType.Stdout, [1]), (RequestType.Stderr, [2]), (RequestType.Stdout, [3])]
          ++ recordBytes .EndRequest 1 (endRequestBody 0 .RequestComplete)) 1
      = some (.ok { stdout := some [1, 3], stderr := some [2] }) :=
  ⟨by decide, by
    rw [C1_demux_accumulates
      [(RequestType.Stdout, [1]), (RequestType.Stderr, [2]), (RequestType.Stdout, [3])]
      0 (by decide)]
    rfl⟩

/-- Claim C2: `convert_to_client_result` returns `Ok(())` exactly for
`RequestComplete`; every other protocol status yields an error carrying
that status and the given app status, and a response stream ending in
EndRequest(Overloaded, 42) makes `handle_response` fail with an error
carrying app status 42, never succeed. -/
theorem C2_protocol_status_errors :
    (∀ (s : ProtocolStatus) (a : Nat),
        s.convert_to_client_result a = .ok () ↔ s = .RequestComplete)
    ∧ (∀ (s : ProtocolStatus) (a : Nat), s ≠ .RequestComplete →
        s.convert_to_client_result a = .error (.EndRequest s a))
    ∧ (∀ recs : List (RequestType × List Nat), OutErrRecs recs →
        Client.handle_response
            (encodeRecords 1 recs
              ++ recordBytes .EndRequest 1 (endRequestBody 42 .Overloaded)) 1
          = some (.error (.EndRequest .Overloaded 42))) := by
  refine ⟨?_, ?_, ?_⟩
  · intro s a
    cases s <;> simp [ProtocolStatus.convert_to_client_result]
  · intro s a hs
    cases s <;> simp_all [ProtocolStatus.convert_to_client_result]
  · intro recs h
    rw [handle_response_encoded recs h 42 .Overloaded]
    rfl

theorem C2_protocol_status_errors_witness :
    (ProtocolStatus.Overloaded ≠ ProtocolStatus.RequestComplete
      ∧ ProtocolStatus.Overloaded.convert_to_client_result 7
          = .error (.EndRequest .Overloaded 7))
    ∧ (OutErrRecs []
      ∧ Client.handle_response
          (encodeRecords 1 []
            ++ recordBytes .EndRequest 1 (endRequestBody 42 .Overloaded)) 1
        = some (.error (.EndRequest .Overloaded 42))) :=
  ⟨⟨by decide, C2_protocol_status_errors.2.1 .Overloaded 7 (by decide)⟩,
   ⟨by decide, C2_protocol_status_errors.2.2 [] (by decide)⟩⟩

/-- Claim C3 counterexample: for the one-chunk source `[[65]]`,
`write_to_stream_batches` emits exactly the single data record and no
trailing zero-length terminator record, contradicting the claim that an
exhausted nonempty source is still followed by a final empty record. -/
theorem C3_counterexample :
    Header.write_to_stream_batches .Stdin 1 [[65]] = recordBytes .Stdin 1 [65]
    ∧ Header.write_to_stream_batches .Stdin 1 [[65]]
        ≠ recordBytes .Stdin 1 [65] ++ recordBytes .Stdin 1 [] :=
  ⟨rfl, by decide⟩

/-- Claim C3 (amended): `write_to_stream_batches` emits one record per
chunk read from the source; when the source produced zero bytes on the
very first read it writes exactly one empty record; when the source is
nonempty it emits the data records only and no final zero-length
terminator (the callers emit the terminator via a second call with an
empty source). -/
theorem C3_batches_amended (t : RequestType) (id : Nat) (chunks : List (List Nat))
    (h : ∀ c ∈ chunks, c ≠ []) :
    Header.write_to_stream_batches t id chunks
      = if chunks = [] then recordBytes t id [] else encodeChunks t id chunks :=
  write_to_stream_batches_nonempty t id chunks h

theorem C3_batches_amended_witness :
    (∀ c ∈ [[7], [8]], c ≠ ([] : List Nat))
    ∧ Header.write_to_stream_batches .Stdin 1 [[7], [8]]
        = if ([[7], [8]] : List (List Nat)) = [] then recordBytes .Stdin 1 []
          else encodeChunks .Stdin 1 [[7], [8]] :=
  ⟨by decide, C3_batches_amended .Stdin 1 [[7], [8]] (by decide)⟩

/-- Claim C4 counterexample: a zero-length request body makes
`handle_request_body` write two empty Stdin records (the batched call's
empty record plus the unconditional terminator call's record), not
exactly one. -/
theorem C4_counterexample :
    Client.handle_request_body 1 [] = recordBytes .Stdin 1 [] ++ recordBytes .Stdin 1 []
    ∧ Client.handle_request_body 1 [] ≠ recordBytes .Stdin 1 [] :=
  ⟨rfl, by decide⟩

/-- Claim C4 (amended): when the caller-supplied request body is
zero-length, the stdin phase writes exactly two empty Stdin records onto
the channel — never zero. -/
theorem C4_empty_body_two_terminators (id : Nat) :
    Client.handle_request_body id []
      = recordBytes .Stdin id [] ++ recordBytes .Stdin id [] := rfl

/-- Claim C5: for every record type, request id and content of length
0..65535, encoding a record (`Header::new` + `Header::write_to_stream`)
and decoding it (`Header::new_from_buf` on the 8 header bytes, then
`read_content_from_stream`) recovers the type tag, request id and content
bytes; the constructed header has `version = 1`,
`content_length + padding_length ≡ 0 (mod 8)` and
`padding_length = (-(content_length)) mod 8`. -/
theorem C5_record_roundtrip (t : RequestType) (rid : Nat) (content : List Nat)
    (h1 : rid < 65536) (h2 : content.length ≤ 65535) :
    (Header.new_from_buf (((Header.new t rid content).write_to_stream content).take 8)).type = t
    ∧ (Header.new_from_buf
        (((Header.new t rid content).write_to_stream content).take 8)).request_id = rid
    ∧ (Header.new_from_buf
          (((Header.new t rid content).write_to_stream content).take 8)).read_content_from_stream
        (((Header.new t rid content).write_to_stream content).drop 8) = some (content, [])
    ∧ ((Header.new t rid content).content_length + (Header.new t rid content).padding_length) % 8
        = 0
    ∧ (Header.new t rid content).version = 1
    ∧ ((Header.new t rid content).padding_length : Int)
        = (-((Header.new t rid content).content_length : Int)) % 8 := by
  have hc : content.length ≤ MAX_LENGTH := h2
  have htake : ((Header.new t rid content).write_to_stream content).take 8
      = (Header.new t rid content).toBytes := by
    rw [show (Header.new t rid content).write_to_stream content
        = recordBytes t rid content ++ [] from (List.append_nil _).symm]
    exact take_eight_recordBytes t rid content []
  have hdrop : ((Header.new t rid content).write_to_stream content).drop 8
      = content ++ List.replicate (Header.new t rid content).padding_length 0 ++ [] := by
    rw [show (Header.new t rid content).write_to_stream content
        = recordBytes t rid content ++ [] from (List.append_nil _).symm]
    exact drop_eight_recordBytes t rid content []
  have hhdr := Header.new_from_buf_toBytes t rid content h1
  have hpad : (Header.new t rid content).padding_length
      = (8 - (Header.new t rid content).content_length % 8) % 8 := rfl
  refine ⟨?_, ?_, ?_, ?_, rfl, ?_⟩
  · rw [htake, hhdr, Header.new_type]
  · rw [htake, hhdr, Header.new_request_id]
  · rw [htake, hhdr, hdrop]
    exact read_content_encoded t rid content [] hc
  · rw [hpad]
    omega
  · rw [hpad]
    omega

theorem C5_record_roundtrip_witness :
    ((3 : Nat) < 65536 ∧ ([10, 20] : List Nat).length ≤ 65535)
    ∧ ((Header.new_from_buf
          (((Header.new .Stdout 3 [10, 20]).write_to_stream [10, 20]).take 8)).type = .Stdout
      ∧ (Header.new_from_buf
          (((Header.new .Stdout 3 [10, 20]).write_to_stream [10, 20]).take 8)).request_id = 3
      ∧ (Header.new_from_buf
            (((Header.new .Stdout 3 [10, 20]).write_to_stream [10, 20]).take 8)).read_content_from_stream
          (((Header.new .Stdout 3 [10, 20]).write_to_stream [10, 20]).drop 8)
            = some ([10, 20], [])
      ∧ ((Header.new .Stdout 3 [10, 20]).content_length
          + (Header.new .Stdout 3 [10, 20]).padding_length) % 8 = 0
      ∧ (Header.new .Stdout 3 [10, 20]).version = 1
      ∧ ((Header.new .Stdout 3 [10, 20]).padding_length : Int)
          = (-((Header.new .Stdout 3 [10, 20]).content_length : Int)) % 8) :=
  ⟨⟨by decide, by decide⟩, C5_record_roundtrip .Stdout 3 [10, 20] (by decide) (by decide)⟩

/-- Claim C6: the parameter encoder emits each length as one raw byte
when below 128, and as four big-endian bytes of `length | 0x80000000`
when at least 128, followed by the raw name bytes then value bytes; a
130-byte length encodes as the 4-byte value `130 | 0x80000000`. -/
theorem C6_param_length_encoding :
    (∀ n : Nat, n < 128 → (ParamLength.new n).content = [n])
    ∧ (∀ n : Nat, 128 ≤ n →
        (ParamLength.new n).content = u32BE ((n ||| 1 <<< 31) % 2 ^ 32))
    ∧ (∀ p : ParamPair, p.write_to_stream
        = (ParamLength.new p.name_data.length).content
          ++ (ParamLength.new p.value_data.length).content ++ p.name_data ++ p.value_data)
    ∧ ParamLength.new 130 = .Long (130 ||| 1 <<< 31)
    ∧ (ParamLength.new 130).content = [128, 0, 0, 130] := by
  refine ⟨?_, ?_, fun p => rfl, by decide, by decide⟩
  · intro n hn
    simp [ParamLength.new, hn, ParamLength.content]
  · intro n hn
    rw [ParamLength.new, if_neg (by omega)]
    rfl

theorem C6_param_length_encoding_witness :
    ((5 : Nat) < 128 ∧ (ParamLength.new 5).content = [5])
    ∧ ((128 : Nat) ≤ 130
      ∧ (ParamLength.new 130).content = u32BE ((130 ||| 1 <<< 31) % 2 ^ 32)) :=
  ⟨⟨by decide, C6_param_length_encoding.1 5 (by decide)⟩,
   ⟨by decide, C6_param_length_encoding.2.1 130 (by decide)⟩⟩

/-- Claim C7 counterexample: two concurrently issued calls (call 0 and
call 1) of `execute_stream` on one keep-alive client both send their
records under request id 1 — the ids are not unique among in-flight
requests, and no freshly allocated id is ever used. -/
theorem C7_counterexample :
    executeStreamRequestId 0 = 1 ∧ executeStreamRequestId 1 = 1
    ∧ ¬ executeStreamRequestId 0 ≠ executeStreamRequestId 1 := by
  decide

/-- Claim C7 (amended): every call of `execute` / `execute_stream` sends
its records under the fixed constant `REQUEST_ID = 1`; the pooled
allocator is never consulted, so concurrently in-flight requests on one
connection share the same id. -/
theorem C7_constant_request_id :
    (∀ call : Nat, executeStreamRequestId call = REQUEST_ID) ∧ REQUEST_ID = 1 :=
  ⟨fun _ => rfl, rfl⟩

/-- Claim C8 (code evidence): in a release-free trace of 65535
consecutive `alloc` calls, the generator hands out 1, 2, …, 65534 and
then 1 again — a duplicate of an outstanding id instead of blocking and
timing out — and its in-use set is still empty at the end, because
`inner_alloc` never inserts the id it returns. -/
theorem C8_alloc_duplicate :
    (allocRun 10 65535 ⟨0, []⟩).1 = List.range' 1 65534 ++ [1]
    ∧ ¬ (allocRun 10 65535 ⟨0, []⟩).1.Nodup
    ∧ (allocRun 10 65535 ⟨0, []⟩).2.ids = [] := by
  have h := allocRun_wraparound 10 (by omega)
  refine ⟨by rw [h], ?_, by rw [h]⟩
  rw [h]
  intro hnd
  have h1 : (1 : Nat) ∈ List.range' 1 65534 := by
    rw [List.mem_range']
    exact ⟨0, by omega, by omega⟩
  have hd := (List.nodup_append.mp hnd).2.2
  exact hd h1 (by simp)

/-- Claim C9: `EndRequestRec::new_from_buf` is total exactly on buffers
of at least 8 bytes, decoding `app_status` as the big-endian u32 of bytes
0..4 and the protocol status from byte 4; on any received EndRequest
record whose content is shorter than 8 bytes, the response loop panics
(it never validates the header's `content_length`). -/
theorem C9_end_request_decode :
    (∀ buf : List Nat, 8 ≤ buf.length →
        EndRequestRec.new_from_buf buf
          = some { app_status :=
                     be_buf_to_u32 (buf.getD 0 0) (buf.getD 1 0) (buf.getD 2 0) (buf.getD 3 0),
                   protocol_status := ProtocolStatus.from_u8 (buf.getD 4 0),
                   reserved := (buf.drop 5).take 3 })
    ∧ (∀ buf : List Nat, buf.length < 8 → EndRequestRec.new_from_buf buf = none)
    ∧ (∀ content : List Nat, content.length < 8 →
        Client.handle_response (recordBytes .EndRequest 1 content) 1 = none) := by
  refine ⟨?_, ?_, ?_⟩
  · intro buf h
    simp only [EndRequestRec.new_from_buf]
    rw [if_pos h]
  · intro buf h
    simp only [EndRequestRec.new_from_buf]
    rw [if_neg (by omega)]
  · intro content h
    have hn : EndRequestRec.new_from_buf content = none := by
      simp only [EndRequestRec.new_from_buf]
      rw [if_neg (by omega)]
    unfold Client.handle_response
    rw [← List.append_nil (recordBytes RequestType.EndRequest 1 content)]
    rw [handleResponseAux_end 1 (by omega) content (by simp only [MAX_LENGTH]; omega)]
    rw [hn]

theorem C9_end_request_decode_witness :
    (8 ≤ ([0, 0, 0, 9, 2, 0, 0, 0] : List Nat).length
      ∧ EndRequestRec.new_from_buf [0, 0, 0, 9, 2, 0, 0, 0]
          = some { app_status := 9, protocol_status := .Overloaded, reserved := [0, 0, 0] })
    ∧ (([1, 2, 3] : List Nat).length < 8 ∧ EndRequestRec.new_from_buf [1, 2, 3] = none)
    ∧ (([1, 2, 3] : List Nat).length < 8
      ∧ Client.handle_response (recordBytes .EndRequest 1 [1, 2, 3]) 1 = none) :=
  ⟨⟨by decide, by
      rw [C9_end_request_decode.1 [0, 0, 0, 9, 2, 0, 0, 0] (by decide)]
      rfl⟩,
   ⟨by decide, C9_end_request_decode.2.1 [1, 2, 3] (by decide)⟩,
   ⟨by decide, C9_end_request_decode.2.2 [1, 2, 3] (by decide)⟩⟩

/-- Claim C10: a successful `handle_response` has `stdout = None` exactly
when the total accumulated Stdout content is empty and `Some(bytes)`
otherwise (likewise stderr), so a stream of only zero-length Stdout
records is indistinguishable from one with no Stdout records at all. -/
theorem C10_stdout_none_iff_empty (recs : List (RequestType × List Nat))
    (h : OutErrRecs recs) (app : Nat) :
    Client.handle_response
        (encodeRecords 1 recs
          ++ recordBytes .EndRequest 1 (endRequestBody app .RequestComplete)) 1
      = some (.ok { stdout := if concatOut recs = [] then none else some (concatOut recs),
                    stderr := if concatErr recs = [] then none else some (concatErr recs) })
    ∧ Client.handle_response
        (encodeRecords 1 [(RequestType.Stdout, []), (RequestType.Stdout, [])]
          ++ recordBytes .EndRequest 1 (endRequestBody 0 .RequestComplete)) 1
      = Client.handle_response
        (encodeRecords 1 []
          ++ recordBytes .EndRequest 1 (endRequestBody 0 .RequestComplete)) 1 := by
  constructor
  · rw [handle_response_encoded recs h app .RequestComplete, listToOpt_eq, listToOpt_eq]
    rfl
  · rfl

theorem C10_stdout_none_iff_empty_witness :
    OutErrRecs [(RequestType.Stdout, [5])]
    ∧ Client.handle_response
        (encodeRecords 1 [(RequestType.Stdout, [5])]
          ++ recordBytes .EndRequest 1 (endRequestBody 3 .RequestComplete)) 1
      = some (.ok { stdout := some [5], stderr := none }) :=
  ⟨by decide, by
    have h := (C10_stdout_none_iff_empty [(RequestType.Stdout, [5])] (by decide) 3).1
    rw [h]
    rfl⟩

end FcgiClient
